import Mathlib

/-!
Shallow embedding of `Scripts/optimize_images.js` (batch image optimizer:
tracker file, watermark generator, optimize path, thumbnail path,
orchestrator).  Filenames are modelled as `List Char`; the external `sharp`
image pipeline is modelled by boolean success oracles keyed by filename;
the tracker `Set` is a `Finset (List Char)`.
-/

namespace OptimizeImages

/-- Filenames (directory entries have no path separators). -/
abbrev FName := List Char

/-- `path.basename(TRACKER_FILE)` — the tracker file's name. -/
def trackerBaseName : FName := "optimized_images.json".toList

/-- The optimized output extension, `".webp"`. -/
def webpExt : FName := ".webp".toList

/-- `String.prototype.toLowerCase` on a filename fragment. -/
def lowerName (s : FName) : FName := s.map Char.toLower

/-- Node's `path.extname`: the substring from the last `"."` of the name to
the end; empty when there is no dot or the only candidate dot is the first
character (leading-dot files have no extension). -/
def extname (s : FName) : FName :=
  if (s.reverse.takeWhile (fun c => !(c == '.'))).length = s.length then []
  else if (s.reverse.takeWhile (fun c => !(c == '.'))).length + 1 = s.length then []
  else '.' :: (s.reverse.takeWhile (fun c => !(c == '.'))).reverse

/-- `path.parse(filename).name`: the filename with its `extname` removed. -/
def baseName (s : FName) : FName := s.take (s.length - (extname s).length)

/-- The optimized/thumbnail output filename: `` `${baseName}.webp` ``. -/
def outName (f : FName) : FName := baseName f ++ webpExt

/-- The extension allow-list of the directory filter. -/
def allowedExts : List FName := ["jpg".toList, "jpeg".toList, "png".toList, "gif".toList]

/-- `["jpg","jpeg","png","gif"].includes(path.extname(name).slice(1).toLowerCase())`. -/
def extAllowed (s : FName) : Bool :=
  decide (((extname s).drop 1).map Char.toLower ∈ allowedExts)

/-- A directory entry as returned by `fs.readdir(..., { withFileTypes: true })`. -/
structure DirEntry where
  name : FName
  isFile : Bool
deriving DecidableEq

/-- The candidate filter of `runOptimization`:
`f.isFile() && !name.startsWith(".") && !name.endsWith(".webp") &&
!name.endsWith(path.basename(TRACKER_FILE)) && allow-list includes ext`. -/
def isCandidate (e : DirEntry) : Bool :=
  e.isFile &&
  !(['.'].isPrefixOf e.name) &&
  !(webpExt.isSuffixOf e.name) &&
  !(trackerBaseName.isSuffixOf e.name) &&
  extAllowed e.name

/-- `files.filter(...).map((f) => f.name)` of `runOptimization`. -/
def candidateFiles (entries : List DirEntry) : List FName :=
  (entries.filter (fun e => isCandidate e)).map (fun e => e.name)

/-- Outcome of `fs.readFile(TRACKER_FILE)` + `JSON.parse`: the file may be
missing (`ENOENT`), unreadable/unparsable (any other error), or a JSON list
of names. -/
inductive TrackerRead where
  | enoent : TrackerRead
  | otherError (msg : String) : TrackerRead
  | ok (list : List FName) : TrackerRead

/-- `getOptimizedTracker`: `new Set(list)` on success; the `catch` block
returns an empty set both for `ENOENT` and (after logging) for any other
read or parse error. -/
def getOptimizedTracker : TrackerRead → Finset FName
  | .enoent => ∅
  | .otherError _ => ∅
  | .ok l => l.toFinset

/-- `optimizeImage(inputPath, filename, trackerSet)`.  Returns the tracker
set after the call together with the optimized output filename written, if
any.  `optOk filename` tells whether the `sharp` decode → composite →
webp-encode → write pipeline succeeds for this file; on failure the `catch`
block only logs, so nothing is written and the tracker is unchanged. -/
def optimizeImage (optOk : FName → Bool) (filename : FName)
    (trackerSet : Finset FName) : Finset FName × Option FName :=
  if filename ∈ trackerSet then (trackerSet, none)
  else if lowerName (extname filename) = webpExt then (trackerSet, none)
  else if optOk filename then (insert filename trackerSet, some (outName filename))
  else (trackerSet, none)

/-- `createThumbnail(inputPath, filename)`: writes `` `${baseName}.webp` ``
into the thumbnail directory when the resize → composite → encode pipeline
succeeds (`thumbOk filename`); on failure the `catch` block only logs.  The
tracker set is not an argument: the thumbnail path never consults it. -/
def createThumbnail (thumbOk : FName → Bool) (filename : FName) : Option FName :=
  if thumbOk filename then some (outName filename) else none

/-- Result of a run: the final `processedCount`, the optimized outputs
written in order, the thumbnails written in order, and the final tracker
set (which `updateOptimizedTracker` persists verbatim). -/
structure RunResult where
  processedCount : Nat
  optWrites : List FName
  thumbWrites : List FName
  tracker : Finset FName
deriving DecidableEq

/-- The `for (const file of imageFiles)` loop of `runOptimization`: for each
file, if it is not yet tracked run `optimizeImage` and increment
`processedCount` (the increment happens whether or not the optimization
succeeded); then always run `createThumbnail`. -/
def runLoop (optOk thumbOk : FName → Bool) : List FName → Finset FName → RunResult
  | [], tr => ⟨0, [], [], tr⟩
  | f :: fs, tr =>
    let step : Finset FName × Option FName × Nat :=
      if f ∈ tr then (tr, none, 0)
      else ((optimizeImage optOk f tr).1, (optimizeImage optOk f tr).2, 1)
    let thumb := createThumbnail thumbOk f
    let rest := runLoop optOk thumbOk fs step.1
    ⟨step.2.2 + rest.processedCount,
     step.2.1.toList ++ rest.optWrites,
     thumb.toList ++ rest.thumbWrites,
     rest.tracker⟩

/-- The environment of one run: the directory listing, the tracker-file
read outcome, and the success oracles of the two `sharp` pipelines. -/
structure Env where
  entries : List DirEntry
  trackerFile : TrackerRead
  optOk : FName → Bool
  thumbOk : FName → Bool

/-- `runOptimization`: load the tracker, filter the directory listing,
run the per-file loop, persist the final tracker. -/
def runOptimization (env : Env) : RunResult :=
  runLoop env.optOk env.thumbOk (candidateFiles env.entries)
    (getOptimizedTracker env.trackerFile)

/-- `createWatermarkSVG`'s font size:
`Math.max(Math.round(width * 0.03), 18)`. -/
def fontSize (width : ℕ) : ℤ := max (round ((width : ℚ) * 3 / 100)) 18

/-- `createWatermarkSVG`'s padding: `Math.round(fontSize * 0.8)`. -/
def wmPadding (width : ℕ) : ℤ := round ((fontSize width : ℚ) * 4 / 5)

/-- `createWatermarkSVG(width, height)`: the SVG text produced by the
template literal, a pure function of its two arguments. -/
def createWatermarkSVG (width height : ℕ) : String :=
  "\n    <svg width=\"" ++ toString width ++ "\" height=\"" ++ toString height ++
  "\">\n      <text\n        x=\"50%\"\n        y=\"" ++
  toString ((height : ℤ) - wmPadding width) ++
  "\"\n        text-anchor=\"middle\"\n        font-size=\"" ++
  toString (fontSize width) ++
  "\"\n        fill=\"white\"\n        fill-opacity=\"0.45\"\n        font-family=\"Arial, Helvetica, sans-serif\"\n        style=\"letter-spacing: 1px;\"\n      >\n        Sapna Shri Jewellers\n      </text>\n    </svg>\n  "

/-- Per-file success of the optimize step as `runLoop` sees it once the
tracker check has passed: the extension is not already `.webp` and the
`sharp` pipeline succeeds. -/
def optSucceeds (o : FName → Bool) (f : FName) : Bool :=
  !(decide (lowerName (extname f) = webpExt)) && o f

/-- Example run: two candidate sources sharing the base name `a`, fresh
tracker, every `sharp` operation succeeding. -/
def envSameBase : Env :=
  ⟨[⟨"a.jpg".toList, true⟩, ⟨"a.png".toList, true⟩], .enoent,
   fun _ => true, fun _ => true⟩

/-- Example run: two candidate sources with distinct base names, fresh
tracker, every `sharp` operation succeeding; the listing also holds a
hidden file, a text file, a `.webp` file, a directory and the tracker
file, none of which are candidates. -/
def envFresh : Env :=
  ⟨[⟨"a.jpg".toList, true⟩, ⟨".hidden.jpg".toList, true⟩,
    ⟨"note.txt".toList, true⟩, ⟨"c.webp".toList, true⟩,
    ⟨"sub".toList, false⟩, ⟨"optimized_images.json".toList, true⟩,
    ⟨"b.png".toList, true⟩], .enoent,
   fun _ => true, fun _ => true⟩

/-- Example run: a single fresh candidate whose optimization fails. -/
def envOneFail : Env :=
  ⟨[⟨"a.jpg".toList, true⟩], .enoent, fun _ => false, fun _ => true⟩

/-- Example run: two fresh candidates, optimization failing exactly on
`a.jpg`, thumbnails succeeding. -/
def envMixed : Env :=
  ⟨[⟨"a.jpg".toList, true⟩, ⟨"b.png".toList, true⟩], .enoent,
   fun f => !(decide (f = "a.jpg".toList)), fun _ => true⟩

/-- Example run: both candidates already tracked, all pipelines succeed. -/
def envTracked : Env :=
  ⟨[⟨"a.jpg".toList, true⟩, ⟨"b.png".toList, true⟩],
   .ok ["a.jpg".toList, "b.png".toList], fun _ => true, fun _ => true⟩

/-- Example run: unreadable tracker file, one candidate, all pipelines
succeed. -/
def envBadTracker : Env :=
  ⟨[⟨"a.jpg".toList, true⟩], .otherError "EACCES", fun _ => true, fun _ => true⟩

end OptimizeImages

namespace OptimizeImages

theorem runLoop_thumbWrites (o t : FName → Bool) (files : List FName) (tr : Finset FName) :
    (runLoop o t files tr).thumbWrites = files.filterMap (createThumbnail t) := by
  induction files generalizing tr with
  | nil => simp [runLoop]
  | cons f fs ih =>
    by_cases hf : f ∈ tr <;> by_cases ht : t f = true <;>
      simp [runLoop, createThumbnail, hf, ht, ih]

theorem runLoop_tracker (o t : FName → Bool) (files : List FName) (tr : Finset FName) :
    (runLoop o t files tr).tracker = tr ∪ (files.filter (optSucceeds o)).toFinset := by
  induction files generalizing tr with
  | nil => simp [runLoop]
  | cons f fs ih =>
    by_cases hf : f ∈ tr
    · by_cases hp : optSucceeds o f = true
      · simp only [runLoop, hf, if_pos, List.filter_cons, hp, List.toFinset_cons, ih]
        rw [Finset.union_insert, Finset.insert_eq_self.mpr
          (Finset.mem_union_left _ hf)]
      · simp [runLoop, hf, List.filter_cons, hp, ih]
    · by_cases hw : lowerName (extname f) = webpExt
      · have hp : optSucceeds o f = false := by simp [optSucceeds, hw]
        simp [runLoop, optimizeImage, hf, hw, List.filter_cons, hp, ih]
      · by_cases ho : o f = true
        · have hp : optSucceeds o f = true := by simp [optSucceeds, hw, ho]
          simp only [runLoop, hf, if_neg, optimizeImage, hw, ho, if_pos,
            ite_false, ite_true, List.filter_cons, hp, List.toFinset_cons, ih]
          rw [Finset.insert_union, Finset.union_insert]
        · have hp : optSucceeds o f = false := by simp [optSucceeds, ho]
          simp [runLoop, optimizeImage, hf, hw, ho, List.filter_cons, hp, ih]

theorem runLoop_optWrites (o t : FName → Bool) (files : List FName) (tr : Finset FName)
    (hnd : files.Nodup) :
    (runLoop o t files tr).optWrites
      = (files.filter (fun f => !(decide (f ∈ tr)) && optSucceeds o f)).map outName := by
  induction files generalizing tr with
  | nil => simp [runLoop]
  | cons f fs ih =>
    obtain ⟨hfm, hnd'⟩ := List.nodup_cons.mp hnd
    by_cases hf : f ∈ tr
    · simp [runLoop, hf, List.filter_cons, ih tr hnd']
    · by_cases hw : lowerName (extname f) = webpExt
      · have hp : optSucceeds o f = false := by simp [optSucceeds, hw]
        simp [runLoop, optimizeImage, hf, hw, List.filter_cons, hp, ih tr hnd']
      · by_cases ho : o f = true
        · have hp : optSucceeds o f = true := by simp [optSucceeds, hw, ho]
          simp [runLoop, optimizeImage, hf, hw, ho, List.filter_cons, hp,
            ih (insert f tr) hnd']
          refine congrArg (List.map outName) (List.filter_congr fun g hg => ?_)
          have hgf : g ≠ f := fun h => hfm (h ▸ hg)
          simp [hgf]
        · have hp : optSucceeds o f = false := by simp [optSucceeds, ho]
          simp [runLoop, optimizeImage, hf, hw, ho, List.filter_cons, hp, ih tr hnd']

theorem runLoop_count (o t : FName → Bool) (files : List FName) (tr : Finset FName)
    (hnd : files.Nodup) :
    (runLoop o t files tr).processedCount
      = (files.filter (fun f => !(decide (f ∈ tr)))).length := by
  induction files generalizing tr with
  | nil => simp [runLoop]
  | cons f fs ih =>
    obtain ⟨hfm, hnd'⟩ := List.nodup_cons.mp hnd
    by_cases hf : f ∈ tr
    · simp [runLoop, hf, List.filter_cons, ih tr hnd']
    · by_cases hw : lowerName (extname f) = webpExt
      · simp [runLoop, optimizeImage, hf, hw, List.filter_cons, ih tr hnd']
        omega
      · by_cases ho : o f = true
        · have hskip : fs.filter (fun g => !(decide (g = f)) && !(decide (g ∈ tr)))
              = fs.filter (fun g => !(decide (g ∈ tr))) := by
            refine List.filter_congr (fun g hg => ?_)
            have hgf : g ≠ f := fun h => hfm (h ▸ hg)
            simp [hgf]
          simp [runLoop, optimizeImage, hf, hw, ho, List.filter_cons,
            ih (insert f tr) hnd', hskip]
          omega
        · simp [runLoop, optimizeImage, hf, hw, ho, List.filter_cons, ih tr hnd']
          omega

theorem runLoop_allTracked (o t : FName → Bool) (files : List FName) (tr : Finset FName)
    (h : ∀ f ∈ files, f ∈ tr) :
    runLoop o t files tr = ⟨0, [], files.filterMap (createThumbnail t), tr⟩ := by
  induction files with
  | nil => simp [runLoop]
  | cons f fs ih =>
    have hf : f ∈ tr := h f (List.mem_cons_self f fs)
    have ih' := ih (fun g hg => h g (List.mem_cons_of_mem f hg))
    by_cases ht : t f = true <;>
      simp [runLoop, createThumbnail, hf, ht, ih']

theorem takeWhile_nosj (x : List Char) :
    List.takeWhile (fun c => !(c == '.')) ('n' :: 'o' :: 's' :: 'j' :: '.' :: x)
      = ['n', 'o', 's', 'j'] := rfl

theorem extname_append_tracker (t : List Char) :
    extname (t ++ trackerBaseName) = ".json".toList := by
  have hrev : (t ++ trackerBaseName).reverse
      = 'n' :: 'o' :: 's' :: 'j' :: '.' :: ("segami_dezimitpo".toList ++ t.reverse) := by
    rw [List.reverse_append]
    rfl
  have hlen : (t ++ trackerBaseName).length = t.length + 21 := by
    simp [trackerBaseName]
  have h1 : ¬ ((['n', 'o', 's', 'j'] : List Char).length = (t ++ trackerBaseName).length) := by
    simp only [hlen, List.length_cons, List.length_nil]
    omega
  have h2 : ¬ ((['n', 'o', 's', 'j'] : List Char).length + 1
      = (t ++ trackerBaseName).length) := by
    simp only [hlen, List.length_cons, List.length_nil]
    omega
  unfold extname
  rw [hrev, takeWhile_nosj, if_neg h1, if_neg h2]
  rfl

theorem extAllowed_of_tracker_suffix (s : FName)
    (h : trackerBaseName.isSuffixOf s = true) : extAllowed s = false := by
  rw [List.isSuffixOf_iff_suffix] at h
  obtain ⟨t, ht⟩ := h
  subst ht
  simp only [extAllowed, extname_append_tracker]
  decide

theorem lowerExt_ne_webp_of_allowed (f : FName) (h : extAllowed f = true) :
    lowerName (extname f) ≠ webpExt := by
  intro hw
  have hd : ((extname f).drop 1).map Char.toLower = "webp".toList := by
    have hdrop : (lowerName (extname f)).drop 1 = webpExt.drop 1 := by rw [hw]
    rw [lowerName, ← List.map_drop] at hdrop
    exact hdrop
  rw [extAllowed, hd] at h
  exact absurd h (by decide)

theorem mem_candidateFiles (entries : List DirEntry) (f : FName)
    (hf : f ∈ candidateFiles entries) :
    ∃ e ∈ entries, isCandidate e = true ∧ e.name = f := by
  simp only [candidateFiles, List.mem_map, List.mem_filter] at hf
  obtain ⟨e, ⟨he, hc⟩, hname⟩ := hf
  exact ⟨e, he, hc, hname⟩

theorem candidate_extAllowed (e : DirEntry) (h : isCandidate e = true) :
    extAllowed e.name = true := by
  simp only [isCandidate, Bool.and_eq_true] at h
  exact h.2

theorem candidateFiles_not_webp (entries : List DirEntry) (f : FName)
    (hf : f ∈ candidateFiles entries) : lowerName (extname f) ≠ webpExt := by
  obtain ⟨e, _, hc, hname⟩ := mem_candidateFiles entries f hf
  rw [← hname]
  exact lowerExt_ne_webp_of_allowed e.name (candidate_extAllowed e hc)

theorem optSucceeds_of_candidate (o : FName → Bool) (entries : List DirEntry) (f : FName)
    (hf : f ∈ candidateFiles entries) : optSucceeds o f = o f := by
  simp [optSucceeds, candidateFiles_not_webp entries f hf]

theorem bool_eq_false {b : Bool} (h : ¬ b = true) : b = false := by
  cases b
  · rfl
  · exact absurd rfl h

theorem filterMap_thumb_all (t : FName → Bool) (l : List FName)
    (h : ∀ f ∈ l, t f = true) : l.filterMap (createThumbnail t) = l.map outName := by
  induction l with
  | nil => rfl
  | cons f fs ih =>
    have hf := h f (List.mem_cons_self f fs)
    have ih' := ih (fun g hg => h g (List.mem_cons_of_mem f hg))
    simp [createThumbnail, hf, ih']

/-- C8: for every positive width, the watermark font size is
`max(round(width * 0.03), 18)`; it is monotonically non-decreasing in the
width and never falls below the fixed minimum `18`. -/
theorem fontSize_formula_monotone_min :
    (∀ w : ℕ, fontSize w = max (round ((w : ℚ) * 3 / 100)) 18) ∧
    (∀ w w' : ℕ, w ≤ w' → fontSize w ≤ fontSize w') ∧
    (∀ w : ℕ, 0 < w → 18 ≤ fontSize w) := by
  refine ⟨fun w => rfl, fun w w' h => ?_, fun w _ => le_max_right _ _⟩
  have hq : (w : ℚ) ≤ (w' : ℚ) := by exact_mod_cast h
  refine max_le_max ?_ le_rfl
  rw [round_eq, round_eq]
  exact Int.floor_mono (by linarith)

theorem fontSize_formula_monotone_min_witness :
    18 ≤ fontSize 5 ∧ fontSize 5 ≤ fontSize 1000 :=
  ⟨fontSize_formula_monotone_min.2.2 5 (by decide),
   fontSize_formula_monotone_min.2.1 5 1000 (by decide)⟩

/-- C9: the watermark generator is deterministic — its output depends only
on the width and height arguments, so two invocations with equal arguments
produce identical SVG output. -/
theorem createWatermarkSVG_deterministic :
    ∀ w₁ h₁ w₂ h₂ : ℕ, w₁ = w₂ → h₁ = h₂ →
      createWatermarkSVG w₁ h₁ = createWatermarkSVG w₂ h₂ := by
  intro w₁ h₁ w₂ h₂ hw hh
  rw [hw, hh]

theorem createWatermarkSVG_deterministic_witness :
    createWatermarkSVG 400 300 = createWatermarkSVG 400 300 :=
  createWatermarkSVG_deterministic 400 300 400 300 rfl rfl

/-- C7: the tracker load returns an empty set when the file is missing
(`ENOENT`) and on any other read/parse failure, so a run with a missing or
corrupted tracker treats every candidate as new (it attempts all of them)
instead of failing. -/
theorem getOptimizedTracker_degrades_to_empty :
    getOptimizedTracker .enoent = ∅ ∧
    (∀ m : String, getOptimizedTracker (.otherError m) = ∅) ∧
    (∀ (env : Env) (m : String), env.trackerFile = .otherError m →
      (candidateFiles env.entries).Nodup →
      (runOptimization env).processedCount = (candidateFiles env.entries).length) := by
  refine ⟨rfl, fun m => rfl, fun env m hm hnd => ?_⟩
  rw [runOptimization, runLoop_count _ _ _ _ hnd, hm]
  simp [getOptimizedTracker]

theorem getOptimizedTracker_degrades_to_empty_witness :
    getOptimizedTracker (.otherError "EACCES") = ∅ ∧
    (runOptimization envBadTracker).processedCount
      = (candidateFiles envBadTracker.entries).length :=
  ⟨getOptimizedTracker_degrades_to_empty.2.1 "EACCES",
   getOptimizedTracker_degrades_to_empty.2.2 envBadTracker "EACCES" rfl (by decide)⟩

/-- C10: within a run the tracker only grows — `optimizeImage` either
leaves the tracker unchanged or inserts the current filename, the loop
never removes an entry, so the persisted tracker is a superset of the
loaded one (stale entries are preserved forever). -/
theorem tracker_only_grows :
    (∀ (o : FName → Bool) (f : FName) (tr : Finset FName),
      (optimizeImage o f tr).1 = tr ∨ (optimizeImage o f tr).1 = insert f tr) ∧
    (∀ (o t : FName → Bool) (files : List FName) (tr : Finset FName),
      tr ⊆ (runLoop o t files tr).tracker) ∧
    (∀ env : Env, getOptimizedTracker env.trackerFile ⊆ (runOptimization env).tracker) := by
  refine ⟨fun o f tr => ?_, fun o t files tr => ?_, fun env => ?_⟩
  · by_cases h1 : f ∈ tr
    · exact Or.inl (by simp [optimizeImage, h1])
    · by_cases h2 : lowerName (extname f) = webpExt
      · exact Or.inl (by simp [optimizeImage, h1, h2])
      · by_cases h3 : o f = true
        · exact Or.inr (by simp [optimizeImage, h1, h2, h3])
        · exact Or.inl (by simp [optimizeImage, h1, h2, h3])
  · rw [runLoop_tracker]
    exact Finset.subset_union_left
  · rw [runOptimization, runLoop_tracker]
    exact Finset.subset_union_left

theorem tracker_only_grows_witness :
    getOptimizedTracker envTracked.trackerFile ⊆ (runOptimization envTracked).tracker :=
  tracker_only_grows.2.2 envTracked

/-- C4: `optimizeImage` is a no-op (tracker unchanged, nothing written)
when the filename is already tracked or its lowercased extension is
already `.webp`; consequently a second run over the same sources with the
tracker persisted by the first run writes zero additional optimized
outputs. -/
theorem optimize_skip_idempotent :
    (∀ (o : FName → Bool) (f : FName) (tr : Finset FName),
      f ∈ tr ∨ lowerName (extname f) = webpExt → optimizeImage o f tr = (tr, none)) ∧
    (∀ (env : Env) (l : List FName),
      l.toFinset = (runOptimization env).tracker →
      (candidateFiles env.entries).Nodup →
      (runOptimization { env with trackerFile := .ok l }).optWrites = []) := by
  constructor
  · rintro o f tr (h | h)
    · simp [optimizeImage, h]
    · by_cases h1 : f ∈ tr
      · simp [optimizeImage, h1]
      · simp [optimizeImage, h1, h]
  · intro env l hl hnd
    rw [runOptimization] at hl ⊢
    rw [runLoop_optWrites _ _ _ _ hnd]
    have hnil : (candidateFiles env.entries).filter
        (fun f => !(decide (f ∈ getOptimizedTracker (TrackerRead.ok l)))
          && optSucceeds env.optOk f) = [] := by
      refine List.filter_eq_nil_iff.mpr (fun f hf => ?_)
      by_cases hs : optSucceeds env.optOk f = true
      · have hmem : f ∈ getOptimizedTracker (TrackerRead.ok l) := by
          show f ∈ l.toFinset
          rw [hl, runLoop_tracker]
          exact Finset.mem_union_right _
            (List.mem_toFinset.mpr (List.mem_filter.mpr ⟨hf, hs⟩))
        simp [hmem]
      · simp [bool_eq_false hs]
    rw [hnil]
    rfl

theorem optimize_skip_idempotent_witness :
    optimizeImage envMixed.optOk ("b.png".toList) {"b.png".toList} = ({"b.png".toList}, none) ∧
    (runOptimization { envMixed with trackerFile := .ok ["b.png".toList] }).optWrites = [] :=
  ⟨optimize_skip_idempotent.1 envMixed.optOk ("b.png".toList) {"b.png".toList}
      (Or.inl (by decide)),
   optimize_skip_idempotent.2 envMixed ["b.png".toList] (by decide) (by decide)⟩

/-- C5: the thumbnail step runs for every candidate file on every run and
never touches the tracker: the run's thumbnail writes are exactly the
per-candidate `createThumbnail` results, the tracker does not depend on
the thumbnail oracle, and a run whose candidates are all tracked writes
zero optimized outputs while regenerating every thumbnail. -/
theorem thumbnails_regenerated_every_run :
    (∀ env : Env, (runOptimization env).thumbWrites
        = (candidateFiles env.entries).filterMap (createThumbnail env.thumbOk)) ∧
    (∀ (env : Env) (t₁ t₂ : FName → Bool),
      (runOptimization { env with thumbOk := t₁ }).tracker
        = (runOptimization { env with thumbOk := t₂ }).tracker) ∧
    (∀ env : Env,
      (∀ f ∈ candidateFiles env.entries, f ∈ getOptimizedTracker env.trackerFile) →
      (runOptimization env).optWrites = [] ∧
      (runOptimization env).processedCount = 0 ∧
      (runOptimization env).tracker = getOptimizedTracker env.trackerFile ∧
      ((∀ f ∈ candidateFiles env.entries, env.thumbOk f = true) →
        (runOptimization env).thumbWrites = (candidateFiles env.entries).map outName)) := by
  refine ⟨fun env => ?_, fun env t₁ t₂ => ?_, fun env h => ?_⟩
  · rw [runOptimization, runLoop_thumbWrites]
  · rw [runOptimization, runOptimization, runLoop_tracker, runLoop_tracker]
  · rw [runOptimization, runLoop_allTracked _ _ _ _ h]
    exact ⟨rfl, rfl, rfl, fun hth => filterMap_thumb_all _ _ hth⟩

theorem thumbnails_regenerated_every_run_witness :
    (runOptimization envTracked).optWrites = [] ∧
    (runOptimization envTracked).processedCount = 0 ∧
    (runOptimization envTracked).tracker = getOptimizedTracker envTracked.trackerFile ∧
    (runOptimization envTracked).thumbWrites
      = (candidateFiles envTracked.entries).map outName := by
  have h := thumbnails_regenerated_every_run.2.2 envTracked (by decide)
  exact ⟨h.1, h.2.1, h.2.2.1, h.2.2.2 (fun f _ => rfl)⟩

/-- C6: a directory entry is a candidate iff it is a regular file, not
hidden, not named with a `.webp` suffix, not the tracker file, and its
lowercased extension is in the allow-list; in particular a file whose
extension is already the output format is never in the candidate list. -/
theorem candidate_characterization :
    (∀ e : DirEntry, isCandidate e = true ↔
      (e.isFile = true ∧ ¬ (['.'].isPrefixOf e.name = true) ∧
       ¬ (webpExt.isSuffixOf e.name = true) ∧ e.name ≠ trackerBaseName ∧
       ((extname e.name).drop 1).map Char.toLower ∈ allowedExts)) ∧
    (∀ (entries : List DirEntry) (f : FName),
      lowerName (extname f) = webpExt → f ∉ candidateFiles entries) := by
  constructor
  · intro e
    constructor
    · intro h
      simp only [isCandidate, Bool.and_eq_true, Bool.not_eq_true'] at h
      obtain ⟨⟨⟨⟨hfile, hpre⟩, hwebp⟩, htrk⟩, hext⟩ := h
      refine ⟨hfile, by simp [hpre], by simp [hwebp], ?_, by simpa [extAllowed] using hext⟩
      intro heq
      rw [heq] at htrk
      have hself : trackerBaseName.isSuffixOf trackerBaseName = true := by decide
      simp [hself] at htrk
    · rintro ⟨hfile, hpre, hwebp, htrk, hext⟩
      have hts : trackerBaseName.isSuffixOf e.name = false := by
        cases hcase : trackerBaseName.isSuffixOf e.name
        · rfl
        · have hfalse := extAllowed_of_tracker_suffix e.name hcase
          simp only [extAllowed, decide_eq_false_iff_not] at hfalse
          exact absurd hext hfalse
      simp only [isCandidate, Bool.and_eq_true, Bool.not_eq_true']
      refine ⟨⟨⟨⟨hfile, bool_eq_false hpre⟩, bool_eq_false hwebp⟩, hts⟩, ?_⟩
      simp only [extAllowed, decide_eq_true_eq]
      exact hext
  · intro entries f hw hmem
    exact candidateFiles_not_webp entries f hmem hw

theorem candidate_characterization_witness :
    isCandidate ⟨"a.jpg".toList, true⟩ = true ∧
    ("c.webp".toList) ∉ candidateFiles envFresh.entries :=
  ⟨(candidate_characterization.1 ⟨"a.jpg".toList, true⟩).mpr
      ⟨rfl, by decide, by decide, by decide, by decide⟩,
   candidate_characterization.2 envFresh.entries ("c.webp".toList) (by decide)⟩

/-- C2: a failed optimization leaves the tracker unchanged and is not
propagated: the final tracker is exactly the loaded tracker plus the
successfully optimized candidates, it contains every candidate whose
pipeline succeeded and omits every untracked candidate whose pipeline
failed. -/
theorem failure_leaves_tracker_unchanged :
    (∀ (o : FName → Bool) (f : FName) (tr : Finset FName),
      o f = false → optimizeImage o f tr = (tr, none)) ∧
    (∀ env : Env, (runOptimization env).tracker
        = getOptimizedTracker env.trackerFile
          ∪ ((candidateFiles env.entries).filter (optSucceeds env.optOk)).toFinset) ∧
    (∀ (env : Env) (f : FName), f ∈ candidateFiles env.entries → env.optOk f = true →
      f ∈ (runOptimization env).tracker) ∧
    (∀ (env : Env) (f : FName), f ∈ candidateFiles env.entries → env.optOk f = false →
      f ∉ getOptimizedTracker env.trackerFile → f ∉ (runOptimization env).tracker) := by
  refine ⟨fun o f tr ho => ?_, fun env => ?_, fun env f hf ho => ?_,
    fun env f hf ho hT => ?_⟩
  · by_cases h1 : f ∈ tr
    · simp [optimizeImage, h1]
    · by_cases h2 : lowerName (extname f) = webpExt
      · simp [optimizeImage, h1, h2]
      · simp [optimizeImage, h1, h2, ho]
  · rw [runOptimization, runLoop_tracker]
  · rw [runOptimization, runLoop_tracker]
    refine Finset.mem_union_right _ (List.mem_toFinset.mpr (List.mem_filter.mpr ⟨hf, ?_⟩))
    rw [optSucceeds_of_candidate env.optOk env.entries f hf]
    exact ho
  · rw [runOptimization, runLoop_tracker]
    intro hmem
    rcases Finset.mem_union.mp hmem with h | h
    · exact hT h
    · have hfil := List.mem_filter.mp (List.mem_toFinset.mp h)
      rw [optSucceeds_of_candidate env.optOk env.entries f hf, ho] at hfil
      exact absurd hfil.2 (by decide)

theorem failure_leaves_tracker_unchanged_witness :
    optimizeImage envMixed.optOk ("a.jpg".toList) ∅ = (∅, none) ∧
    ("b.png".toList) ∈ (runOptimization envMixed).tracker ∧
    ("a.jpg".toList) ∉ (runOptimization envMixed).tracker :=
  ⟨failure_leaves_tracker_unchanged.1 envMixed.optOk ("a.jpg".toList) ∅ (by decide),
   failure_leaves_tracker_unchanged.2.2.1 envMixed ("b.png".toList) (by decide) (by decide),
   failure_leaves_tracker_unchanged.2.2.2 envMixed ("a.jpg".toList) (by decide) (by decide)
     (by decide)⟩

/-- C3 (counterexample): a fresh candidate whose optimization fails is
still counted — `processedCount` reports `1` although zero images were
successfully optimized (no output written, tracker still empty). -/
theorem processedCount_counts_failed_attempt :
    (runOptimization envOneFail).processedCount = 1 ∧
    (runOptimization envOneFail).optWrites = [] ∧
    (runOptimization envOneFail).tracker = ∅ := by decide

/-- C3 (amended): the reported processed count equals the number of
candidate files that were not already tracked when visited (optimization
attempts), whether or not the attempt succeeded. -/
theorem processedCount_eq_untracked_candidates (env : Env)
    (hnd : (candidateFiles env.entries).Nodup) :
    (runOptimization env).processedCount
      = ((candidateFiles env.entries).filter
          (fun f => !(decide (f ∈ getOptimizedTracker env.trackerFile)))).length := by
  rw [runOptimization, runLoop_count _ _ _ _ hnd]

theorem processedCount_eq_untracked_candidates_witness :
    (runOptimization envMixed).processedCount
      = ((candidateFiles envMixed.entries).filter
          (fun f => !(decide (f ∈ getOptimizedTracker envMixed.trackerFile)))).length :=
  processedCount_eq_untracked_candidates envMixed (by decide)

/-- C1 (counterexample): a fresh run over two candidates that both convert
successfully but share the base name `a` writes only one distinct
optimized output file and one distinct thumbnail file (the second write
overwrites the first), although the tracker does gain both filenames. -/
theorem distinct_sources_can_collide :
    envSameBase.optOk ("a.jpg".toList) = true ∧
    envSameBase.optOk ("a.png".toList) = true ∧
    getOptimizedTracker envSameBase.trackerFile = ∅ ∧
    (candidateFiles envSameBase.entries).length = 2 ∧
    (runOptimization envSameBase).tracker.card = 2 ∧
    (runOptimization envSameBase).optWrites.toFinset.card = 1 ∧
    (runOptimization envSameBase).thumbWrites.toFinset.card = 1 := by decide

/-- C1 (amended): for a fresh run (empty tracker) over `N` candidates with
pairwise distinct base names whose conversions all succeed, exactly `N`
distinct optimized output files and `N` distinct thumbnail files are
produced and the persisted tracker is exactly the set of the `N` source
filenames. -/
theorem fresh_run_processes_all (env : Env)
    (hTr : getOptimizedTracker env.trackerFile = ∅)
    (hnd : (candidateFiles env.entries).Nodup)
    (hbase : ((candidateFiles env.entries).map baseName).Nodup)
    (hOk : ∀ f ∈ candidateFiles env.entries, env.optOk f = true)
    (hTh : ∀ f ∈ candidateFiles env.entries, env.thumbOk f = true) :
    (runOptimization env).optWrites.toFinset.card = (candidateFiles env.entries).length ∧
    (runOptimization env).thumbWrites.toFinset.card = (candidateFiles env.entries).length ∧
    (runOptimization env).tracker = (candidateFiles env.entries).toFinset := by
  have houtnd : ((candidateFiles env.entries).map outName).Nodup := by
    have hmm : (candidateFiles env.entries).map outName
        = ((candidateFiles env.entries).map baseName).map (fun b => b ++ webpExt) := by
      rw [List.map_map]
      rfl
    rw [hmm]
    exact hbase.map (List.append_left_injective webpExt)
  have hsucc : (candidateFiles env.entries).filter (optSucceeds env.optOk)
      = candidateFiles env.entries :=
    List.filter_eq_self.mpr (fun f hf => by
      rw [optSucceeds_of_candidate env.optOk env.entries f hf]
      exact hOk f hf)
  refine ⟨?_, ?_, ?_⟩
  · rw [runOptimization, runLoop_optWrites _ _ _ _ hnd, hTr]
    have hfilter : (candidateFiles env.entries).filter
        (fun f => !(decide (f ∈ (∅ : Finset FName))) && optSucceeds env.optOk f)
        = candidateFiles env.entries := by
      refine List.filter_eq_self.mpr (fun f hf => ?_)
      simp [optSucceeds_of_candidate env.optOk env.entries f hf, hOk f hf]
    rw [hfilter, List.toFinset_card_of_nodup houtnd, List.length_map]
  · rw [runOptimization, runLoop_thumbWrites, filterMap_thumb_all _ _ hTh,
      List.toFinset_card_of_nodup houtnd, List.length_map]
  · rw [runOptimization, runLoop_tracker, hTr, hsucc, Finset.empty_union]

theorem fresh_run_processes_all_witness :
    (runOptimization envFresh).optWrites.toFinset.card
      = (candidateFiles envFresh.entries).length ∧
    (runOptimization envFresh).thumbWrites.toFinset.card
      = (candidateFiles envFresh.entries).length ∧
    (runOptimization envFresh).tracker = (candidateFiles envFresh.entries).toFinset :=
  fresh_run_processes_all envFresh (by decide) (by decide) (by decide)
    (fun f _ => rfl) (fun f _ => rfl)

end OptimizeImages
